import Mathlib

/-!
Shallow embedding of crates/subspace-core-primitives/src/objects.rs.

The Rust source defines three versioned object-mapping record types
(BlockObject, PieceObject, GlobalObject) and two collection wrappers
(BlockObjectMapping, PieceObjectMapping).  Machine integers u8/u16/u32/u64
are modelled as Nat with explicit range predicates; a Rust value of type
u8 always satisfies b < 256, and so on.  The canonical binary codec is the
parity-scale-codec derive: each enum encodes its codec index as one tag
byte (0 for V0) followed by the fields in declaration order, fixed-width
integers little-endian, byte arrays raw, and Vec with a SCALE compact
length prefix.  Decoding consumes bytes from the front of a list and
returns the value together with the unconsumed remainder; decodeAll (the
codec library's DecodeAll, available for every derived Decode) additionally
requires the remainder to be empty.  The structured textual form is the
serde derive with the rename-all camelCase attribute placed on each enum,
which renames variants (V0 renders as v0) and leaves field identifiers
untouched, producing the externally tagged representation.
-/

namespace Subspace

/-- Model of a Rust 3-byte array [u8; 3] as three Nat components. -/
structure Bytes3 where
  b0 : Nat
  b1 : Nat
  b2 : Nat
deriving DecidableEq, Repr

/-- Range predicate: each component is a byte value. -/
def Bytes3.wf (b : Bytes3) : Prop := b.b0 < 256 ∧ b.b1 < 256 ∧ b.b2 < 256

instance (b : Bytes3) : Decidable b.wf :=
  inferInstanceAs (Decidable (_ ∧ _ ∧ _))

/-- Model of u32::from_le_bytes on four byte values. -/
def u32FromLE (b0 b1 b2 b3 : Nat) : Nat :=
  b0 + 256 * b1 + 65536 * b2 + 16777216 * b3

/-- SCALE encoding of a [u8; 3] field: the three raw bytes. -/
def Bytes3.encode (b : Bytes3) : List Nat := [b.b0, b.b1, b.b2]

/-- SCALE decoding of a [u8; 3] field: take three bytes from the front. -/
def Bytes3.decode : List Nat → Option (Bytes3 × List Nat)
  | b0 :: b1 :: b2 :: r => some (⟨b0, b1, b2⟩, r)
  | _ => none

/-- SCALE encoding of a u16 field: two bytes little-endian. -/
def encodeU16 (v : Nat) : List Nat := [v % 256, v / 256 % 256]

/-- SCALE decoding of a u16 field. -/
def decodeU16 : List Nat → Option (Nat × List Nat)
  | b0 :: b1 :: r => some (b0 + 256 * b1, r)
  | _ => none

/-- SCALE encoding of a u64 field: eight bytes little-endian. -/
def encodeU64 (v : Nat) : List Nat :=
  [v % 256, v / 256 % 256, v / 65536 % 256, v / 16777216 % 256,
   v / 4294967296 % 256, v / 1099511627776 % 256,
   v / 281474976710656 % 256, v / 72057594037927936 % 256]

/-- SCALE decoding of a u64 field. -/
def decodeU64 : List Nat → Option (Nat × List Nat)
  | b0 :: b1 :: b2 :: b3 :: b4 :: b5 :: b6 :: b7 :: r =>
      some (b0 + 256 * b1 + 65536 * b2 + 16777216 * b3
        + 4294967296 * b4 + 1099511627776 * b5
        + 281474976710656 * b6 + 72057594037927936 * b7, r)
  | _ => none

/-- The BlockObject enum: one variant V0 with two packed 24-bit fields,
each stored as a raw little-endian [u8; 3]. -/
inductive BlockObject where
  | V0 (offset : Bytes3) (size : Bytes3)
deriving DecidableEq, Repr

/-- Range predicate for BlockObject: all packed bytes are byte values. -/
def BlockObject.wf : BlockObject → Prop
  | .V0 o s => o.wf ∧ s.wf

instance : (x : BlockObject) → Decidable x.wf
  | .V0 _ _ => inferInstanceAs (Decidable (_ ∧ _))

/-- Accessor BlockObject::offset: u32::from_le_bytes with a zero fourth byte. -/
def BlockObject.offset : BlockObject → Nat
  | .V0 o _ => u32FromLE o.b0 o.b1 o.b2 0

/-- Accessor BlockObject::size: u32::from_le_bytes with a zero fourth byte. -/
def BlockObject.size : BlockObject → Nat
  | .V0 _ s => u32FromLE s.b0 s.b1 s.b2 0

/-- Derived SCALE encode for BlockObject: tag byte 0 (codec index of V0),
then offset bytes, then size bytes. -/
def BlockObject.encode : BlockObject → List Nat
  | .V0 o s => 0 :: (o.encode ++ s.encode)

/-- Derived SCALE decode for BlockObject: read the tag byte, accept only 0,
then read the two byte-array fields in declaration order. -/
def BlockObject.decode (input : List Nat) : Option (BlockObject × List Nat) :=
  match input with
  | [] => none
  | tag :: r =>
    if tag = 0 then
      (Bytes3.decode r).bind fun (o, r1) =>
      (Bytes3.decode r1).bind fun (s, r2) =>
      some (.V0 o s, r2)
    else none

/-- DecodeAll for BlockObject: decode and require no unconsumed bytes. -/
def BlockObject.decodeAll (input : List Nat) : Option BlockObject :=
  match BlockObject.decode input with
  | some (x, []) => some x
  | _ => none

/-- The PieceObject enum: one variant V0 with a native u16 offset and a
packed 24-bit size. -/
inductive PieceObject where
  | V0 (offset : Nat) (size : Bytes3)
deriving DecidableEq, Repr

/-- Range predicate for PieceObject: offset fits u16, size bytes are bytes. -/
def PieceObject.wf : PieceObject → Prop
  | .V0 o s => o < 65536 ∧ s.wf

instance : (x : PieceObject) → Decidable x.wf
  | .V0 _ _ => inferInstanceAs (Decidable (_ ∧ _))

/-- Accessor PieceObject::offset: returns the stored u16. -/
def PieceObject.offset : PieceObject → Nat
  | .V0 o _ => o

/-- Accessor PieceObject::size: u32::from_le_bytes with a zero fourth byte. -/
def PieceObject.size : PieceObject → Nat
  | .V0 _ s => u32FromLE s.b0 s.b1 s.b2 0

/-- Derived SCALE encode for PieceObject: tag 0, u16 offset LE, size bytes. -/
def PieceObject.encode : PieceObject → List Nat
  | .V0 o s => 0 :: (encodeU16 o ++ s.encode)

/-- Derived SCALE decode for PieceObject. -/
def PieceObject.decode (input : List Nat) : Option (PieceObject × List Nat) :=
  match input with
  | [] => none
  | tag :: r =>
    if tag = 0 then
      (decodeU16 r).bind fun (o, r1) =>
      (Bytes3.decode r1).bind fun (s, r2) =>
      some (.V0 o s, r2)
    else none

/-- DecodeAll for PieceObject: decode and require no unconsumed bytes. -/
def PieceObject.decodeAll (input : List Nat) : Option PieceObject :=
  match PieceObject.decode input with
  | some (x, []) => some x
  | _ => none

/-- The GlobalObject enum: one variant V0 with u64 piece_index, u16 offset
and packed 24-bit size. -/
inductive GlobalObject where
  | V0 (piece_index : Nat) (offset : Nat) (size : Bytes3)
deriving DecidableEq, Repr

/-- Range predicate for GlobalObject. -/
def GlobalObject.wf : GlobalObject → Prop
  | .V0 pi o s => pi < 18446744073709551616 ∧ o < 65536 ∧ s.wf

instance : (x : GlobalObject) → Decidable x.wf
  | .V0 _ _ _ => inferInstanceAs (Decidable (_ ∧ _ ∧ _))

/-- Accessor GlobalObject::piece_index: returns the stored u64. -/
def GlobalObject.piece_index : GlobalObject → Nat
  | .V0 pi _ _ => pi

/-- Accessor GlobalObject::offset: returns the stored u16. -/
def GlobalObject.offset : GlobalObject → Nat
  | .V0 _ o _ => o

/-- Accessor GlobalObject::size: u32::from_le_bytes with a zero fourth byte. -/
def GlobalObject.size : GlobalObject → Nat
  | .V0 _ _ s => u32FromLE s.b0 s.b1 s.b2 0

/-- Derived SCALE encode for GlobalObject: tag 0, u64 LE, u16 LE, size bytes. -/
def GlobalObject.encode : GlobalObject → List Nat
  | .V0 pi o s => 0 :: (encodeU64 pi ++ encodeU16 o ++ s.encode)

/-- Derived SCALE decode for GlobalObject. -/
def GlobalObject.decode (input : List Nat) : Option (GlobalObject × List Nat) :=
  match input with
  | [] => none
  | tag :: r =>
    if tag = 0 then
      (decodeU64 r).bind fun (pi, r1) =>
      (decodeU16 r1).bind fun (o, r2) =>
      (Bytes3.decode r2).bind fun (s, r3) =>
      some (.V0 pi o s, r3)
    else none

/-- DecodeAll for GlobalObject: decode and require no unconsumed bytes. -/
def GlobalObject.decodeAll (input : List Nat) : Option GlobalObject :=
  match GlobalObject.decode input with
  | some (x, []) => some x
  | _ => none

/-- SCALE compact encoding of a u32, as used by the derived Vec codec for
the length prefix (Vec encoding rejects lengths above u32::MAX before
reaching this).  Four modes selected by the value range, mode bits in the
two low bits of the first byte. -/
def compactU32Encode (n : Nat) : List Nat :=
  if n < 64 then [n * 4]
  else if n < 16384 then [(n * 4 + 1) % 256, (n * 4 + 1) / 256 % 256]
  else if n < 1073741824 then
    [(n * 4 + 2) % 256, (n * 4 + 2) / 256 % 256,
     (n * 4 + 2) / 65536 % 256, (n * 4 + 2) / 16777216 % 256]
  else [3, n % 256, n / 256 % 256, n / 65536 % 256, n / 16777216 % 256]

/-- SCALE compact decoding of a u32: reads the mode from the two low bits
of the first byte and rejects non-canonical (out of range for the mode)
values, as the codec library does. -/
def compactU32Decode : List Nat → Option (Nat × List Nat)
  | [] => none
  | b :: rest =>
    if b % 4 = 0 then some (b / 4, rest)
    else if b % 4 = 1 then
      match rest with
      | b1 :: r =>
        if 64 ≤ (b + 256 * b1) / 4 then some ((b + 256 * b1) / 4, r) else none
      | _ => none
    else if b % 4 = 2 then
      match rest with
      | b1 :: b2 :: b3 :: r =>
        if 16384 ≤ (b + 256 * b1 + 65536 * b2 + 16777216 * b3) / 4 then
          some ((b + 256 * b1 + 65536 * b2 + 16777216 * b3) / 4, r)
        else none
      | _ => none
    else
      if b / 4 = 0 then
        match rest with
        | b0 :: b1 :: b2 :: b3 :: r =>
          if 1073741824 ≤ b0 + 256 * b1 + 65536 * b2 + 16777216 * b3 then
            some (b0 + 256 * b1 + 65536 * b2 + 16777216 * b3, r)
          else none
        | _ => none
      else none

/-- Derived SCALE encode for a Vec: compact length prefix then the
elements' encodings in order. -/
def encodeVec (enc : α → List Nat) (xs : List α) : List Nat :=
  compactU32Encode xs.length ++ (xs.map enc).flatten

/-- Decode a known number of SCALE-encoded elements from the front. -/
def decodeVecElems (dec : List Nat → Option (α × List Nat)) :
    Nat → List Nat → Option (List α × List Nat)
  | 0, input => some ([], input)
  | n + 1, input =>
    (dec input).bind fun (x, r) =>
    (decodeVecElems dec n r).bind fun (xs, r2) =>
    some (x :: xs, r2)

/-- Derived SCALE decode for a Vec: compact length then that many elements. -/
def decodeVec (dec : List Nat → Option (α × List Nat)) (input : List Nat) :
    Option (List α × List Nat) :=
  (compactU32Decode input).bind fun (n, r) => decodeVecElems dec n r

/-- The BlockObjectMapping struct: a Vec of BlockObject. -/
structure BlockObjectMapping where
  objects : List BlockObject
deriving DecidableEq, Repr

/-- Derived Default for BlockObjectMapping: empty Vec. -/
def BlockObjectMapping.default : BlockObjectMapping := ⟨[]⟩

/-- Range predicate: Vec length fits u32 (required by the Vec encoder)
and all elements are in range. -/
def BlockObjectMapping.wf (m : BlockObjectMapping) : Prop :=
  m.objects.length < 4294967296 ∧ ∀ x ∈ m.objects, x.wf

instance (m : BlockObjectMapping) : Decidable m.wf :=
  inferInstanceAs (Decidable (_ ∧ _))

/-- Derived SCALE encode for BlockObjectMapping: the encoding of its Vec. -/
def BlockObjectMapping.encode (m : BlockObjectMapping) : List Nat :=
  encodeVec BlockObject.encode m.objects

/-- Derived SCALE decode for BlockObjectMapping. -/
def BlockObjectMapping.decode (input : List Nat) :
    Option (BlockObjectMapping × List Nat) :=
  (decodeVec BlockObject.decode input).bind fun (xs, r) => some (⟨xs⟩, r)

/-- DecodeAll for BlockObjectMapping. -/
def BlockObjectMapping.decodeAll (input : List Nat) : Option BlockObjectMapping :=
  match BlockObjectMapping.decode input with
  | some (m, []) => some m
  | _ => none

/-- The PieceObjectMapping struct: a Vec of PieceObject. -/
structure PieceObjectMapping where
  objects : List PieceObject
deriving DecidableEq, Repr

/-- Derived Default for PieceObjectMapping: empty Vec. -/
def PieceObjectMapping.default : PieceObjectMapping := ⟨[]⟩

/-- Range predicate for PieceObjectMapping. -/
def PieceObjectMapping.wf (m : PieceObjectMapping) : Prop :=
  m.objects.length < 4294967296 ∧ ∀ x ∈ m.objects, x.wf

instance (m : PieceObjectMapping) : Decidable m.wf :=
  inferInstanceAs (Decidable (_ ∧ _))

/-- Derived SCALE encode for PieceObjectMapping. -/
def PieceObjectMapping.encode (m : PieceObjectMapping) : List Nat :=
  encodeVec PieceObject.encode m.objects

/-- Derived SCALE decode for PieceObjectMapping. -/
def PieceObjectMapping.decode (input : List Nat) :
    Option (PieceObjectMapping × List Nat) :=
  (decodeVec PieceObject.decode input).bind fun (xs, r) => some (⟨xs⟩, r)

/-- DecodeAll for PieceObjectMapping. -/
def PieceObjectMapping.decodeAll (input : List Nat) : Option PieceObjectMapping :=
  match PieceObjectMapping.decode input with
  | some (m, []) => some m
  | _ => none

/-- Modelled from the spec: the packed 24-bit convention stores a value
in 0..=0xFFFFFF as 3 bytes little-endian.  The source stores the bytes
raw, so only the unpacking direction appears in code (the accessors); this
is the packing direction the spec and the field documentation describe. -/
def pack24 (v : Nat) : Bytes3 := ⟨v % 256, v / 256 % 256, v / 65536 % 256⟩

/-- Unpacking a packed 24-bit field exactly as the accessors do:
u32::from_le_bytes with a zero fourth byte. -/
def unpack24 (b : Bytes3) : Nat := u32FromLE b.b0 b.b1 b.b2 0

/-- Rust's Ord for unsigned integers: numeric three-way comparison. -/
def natCmp (a b : Nat) : Ordering :=
  if a < b then .lt else if a = b then .eq else .gt

/-- Rust's derived Ord for [u8; 3]: element-wise lexicographic. -/
def Bytes3.cmp (a b : Bytes3) : Ordering :=
  (natCmp a.b0 b.b0).then ((natCmp a.b1 b.b1).then (natCmp a.b2 b.b2))

/-- Derived Ord for BlockObject: the single V0 discriminants compare
equal, then fields in declaration order (offset, then size). -/
def BlockObject.cmp : BlockObject → BlockObject → Ordering
  | .V0 o1 s1, .V0 o2 s2 => (Bytes3.cmp o1 o2).then (Bytes3.cmp s1 s2)

/-- Derived Ord for PieceObject: offset (u16, numeric), then size. -/
def PieceObject.cmp : PieceObject → PieceObject → Ordering
  | .V0 o1 s1, .V0 o2 s2 => (natCmp o1 o2).then (Bytes3.cmp s1 s2)

/-- Derived Ord for GlobalObject: piece_index, then offset, then size. -/
def GlobalObject.cmp : GlobalObject → GlobalObject → Ordering
  | .V0 p1 o1 s1, .V0 p2 o2 s2 =>
    (natCmp p1 p2).then ((natCmp o1 o2).then (Bytes3.cmp s1 s2))

/-- Lexicographic strict order on 3-byte arrays, written out as the spec
describes it: first differing component decides. -/
def Bytes3.lexLt (a b : Bytes3) : Prop :=
  a.b0 < b.b0 ∨ (a.b0 = b.b0 ∧ (a.b1 < b.b1 ∨ (a.b1 = b.b1 ∧ a.b2 < b.b2)))

instance (a b : Bytes3) : Decidable (a.lexLt b) :=
  inferInstanceAs (Decidable (_ ∨ _))

/-- Spec-side strict order on BlockObject: lexicographic on the fields in
declared order (the tags are always equal today). -/
def BlockObject.specLt : BlockObject → BlockObject → Prop
  | .V0 o1 s1, .V0 o2 s2 => o1.lexLt o2 ∨ (o1 = o2 ∧ s1.lexLt s2)

instance : (a b : BlockObject) → Decidable (a.specLt b)
  | .V0 _ _, .V0 _ _ => inferInstanceAs (Decidable (_ ∨ _))

/-- Spec-side strict order on PieceObject. -/
def PieceObject.specLt : PieceObject → PieceObject → Prop
  | .V0 o1 s1, .V0 o2 s2 => o1 < o2 ∨ (o1 = o2 ∧ s1.lexLt s2)

instance : (a b : PieceObject) → Decidable (a.specLt b)
  | .V0 _ _, .V0 _ _ => inferInstanceAs (Decidable (_ ∨ _))

/-- Spec-side strict order on GlobalObject. -/
def GlobalObject.specLt : GlobalObject → GlobalObject → Prop
  | .V0 p1 o1 s1, .V0 p2 o2 s2 =>
    p1 < p2 ∨ (p1 = p2 ∧ (o1 < o2 ∨ (o1 = o2 ∧ s1.lexLt s2)))

instance : (a b : GlobalObject) → Decidable (a.specLt b)
  | .V0 _ _ _, .V0 _ _ _ => inferInstanceAs (Decidable (_ ∨ _))

/-- Minimal JSON value model for the structured textual form. -/
inductive Json where
  | num (n : Nat)
  | arr (elems : List Json)
  | obj (fields : List (String × Json))

/-- Serde serialization of a [u8; 3]: a JSON array of three numbers. -/
def Bytes3.toJson (b : Bytes3) : Json :=
  .arr [.num b.b0, .num b.b1, .num b.b2]

/-- Serde deserialization of a [u8; 3]. -/
def Bytes3.fromJson : Json → Option Bytes3
  | .arr [.num a, .num b, .num c] => some ⟨a, b, c⟩
  | _ => none

/-- Serde serialization of BlockObject with the derive attributes in the
source: externally tagged enum, the variant name camel-cased by the
rename-all attribute (V0 renders as v0), struct fields keep their
identifiers. -/
def BlockObject.toJson : BlockObject → Json
  | .V0 o s => .obj [("v0", .obj [("offset", o.toJson), ("size", s.toJson)])]

/-- Serde deserialization of BlockObject (canonical field order). -/
def BlockObject.fromJson : Json → Option BlockObject
  | .obj [("v0", .obj [("offset", oj), ("size", sj)])] =>
    (Bytes3.fromJson oj).bind fun o =>
    (Bytes3.fromJson sj).bind fun s =>
    some (.V0 o s)
  | _ => none

/-- Serde serialization of PieceObject. -/
def PieceObject.toJson : PieceObject → Json
  | .V0 o s => .obj [("v0", .obj [("offset", .num o), ("size", s.toJson)])]

/-- Serde deserialization of PieceObject. -/
def PieceObject.fromJson : Json → Option PieceObject
  | .obj [("v0", .obj [("offset", .num o), ("size", sj)])] =>
    (Bytes3.fromJson sj).bind fun s => some (.V0 o s)
  | _ => none

/-- Serde serialization of GlobalObject: the rename-all attribute on the
enum renames variants only, so the field identifier piece_index is
rendered unchanged. -/
def GlobalObject.toJson : GlobalObject → Json
  | .V0 pi o s =>
    .obj [("v0", .obj [("piece_index", .num pi), ("offset", .num o),
                       ("size", s.toJson)])]

/-- Serde deserialization of GlobalObject. -/
def GlobalObject.fromJson : Json → Option GlobalObject
  | .obj [("v0", .obj [("piece_index", .num pi), ("offset", .num o),
                       ("size", sj)])] =>
    (Bytes3.fromJson sj).bind fun s => some (.V0 pi o s)
  | _ => none

/-- Keys of a top-level JSON object. -/
def Json.topKeys : Json → List String
  | .obj fields => fields.map Prod.fst
  | _ => []

/-- Field names inside the single variant wrapper of an externally tagged
enum rendering. -/
def Json.variantFieldNames : Json → List String
  | .obj [(_, .obj fields)] => fields.map Prod.fst
  | _ => []

/-! Helper lemmas: round trips of the field-level codecs. -/

theorem bytes3_decode_encode (b : Bytes3) (r : List Nat) :
    Bytes3.decode (b.encode ++ r) = some (b, r) := by
  cases b
  rfl

theorem decodeU16_encodeU16 (v : Nat) (hv : v < 65536) (r : List Nat) :
    decodeU16 (encodeU16 v ++ r) = some (v, r) := by
  simp only [encodeU16, decodeU16, List.cons_append, List.nil_append,
    Option.some.injEq, Prod.mk.injEq]
  exact ⟨by omega, trivial⟩

theorem decodeU64_encodeU64 (v : Nat) (hv : v < 18446744073709551616)
    (r : List Nat) :
    decodeU64 (encodeU64 v ++ r) = some (v, r) := by
  simp only [encodeU64, decodeU64, List.cons_append, List.nil_append,
    Option.some.injEq, Prod.mk.injEq]
  exact ⟨by omega, trivial⟩

theorem blockObject_decode_encode (x : BlockObject) (r : List Nat) :
    BlockObject.decode (x.encode ++ r) = some (x, r) := by
  cases x with
  | V0 o s =>
    simp [BlockObject.encode, BlockObject.decode, List.append_assoc,
      bytes3_decode_encode]

theorem pieceObject_decode_encode (x : PieceObject) (hx : x.wf) (r : List Nat) :
    PieceObject.decode (x.encode ++ r) = some (x, r) := by
  cases x with
  | V0 o s =>
    obtain ⟨ho, -⟩ := hx
    simp [PieceObject.encode, PieceObject.decode, List.append_assoc,
      decodeU16_encodeU16 o ho, bytes3_decode_encode]

theorem globalObject_decode_encode (x : GlobalObject) (hx : x.wf)
    (r : List Nat) :
    GlobalObject.decode (x.encode ++ r) = some (x, r) := by
  cases x with
  | V0 pi o s =>
    obtain ⟨hpi, ho, -⟩ := hx
    simp [GlobalObject.encode, GlobalObject.decode, List.append_assoc,
      decodeU64_encodeU64 pi hpi, decodeU16_encodeU16 o ho,
      bytes3_decode_encode]

/-! Helper lemmas: the compact length prefix and the Vec codec. -/

theorem compactU32Decode_encode (n : Nat) (hn : n < 4294967296)
    (r : List Nat) :
    compactU32Decode (compactU32Encode n ++ r) = some (n, r) := by
  unfold compactU32Encode
  by_cases h1 : n < 64
  · have e0 : n * 4 % 4 = 0 := by omega
    have e4 : n * 4 / 4 = n := by omega
    simp [h1, compactU32Decode, e0, e4]
  · by_cases h2 : n < 16384
    · have e1 : (n * 4 + 1) % 256 % 4 = 1 := by omega
      have hsum : (n * 4 + 1) % 256 + 256 * ((n * 4 + 1) / 256 % 256)
          = n * 4 + 1 := by omega
      have e4 : (n * 4 + 1) / 4 = n := by omega
      simp [h1, h2, compactU32Decode, e1, hsum, e4, show 64 ≤ n by omega]
    · by_cases h3 : n < 1073741824
      · have e2 : (n * 4 + 2) % 256 % 4 = 2 := by omega
        have hsum : (n * 4 + 2) % 256 + 256 * ((n * 4 + 2) / 256 % 256)
            + 65536 * ((n * 4 + 2) / 65536 % 256)
            + 16777216 * ((n * 4 + 2) / 16777216 % 256) = n * 4 + 2 := by
          omega
        have e4 : (n * 4 + 2) / 4 = n := by omega
        simp [h1, h2, h3, compactU32Decode, e2, hsum, e4,
          show 16384 ≤ n by omega]
      · have hsum : n % 256 + 256 * (n / 256 % 256)
            + 65536 * (n / 65536 % 256)
            + 16777216 * (n / 16777216 % 256) = n := by omega
        simp [h1, h2, h3, compactU32Decode, hsum,
          show 1073741824 ≤ n by omega]

theorem decodeVecElems_encode {α : Type} (dec : List Nat → Option (α × List Nat))
    (enc : α → List Nat) (xs : List α)
    (h : ∀ x ∈ xs, ∀ r, dec (enc x ++ r) = some (x, r)) (r : List Nat) :
    decodeVecElems dec xs.length ((xs.map enc).flatten ++ r) = some (xs, r) := by
  induction xs with
  | nil => simp [decodeVecElems]
  | cons x xs ih =>
    simp only [List.map_cons, List.flatten_cons, List.length_cons,
      List.append_assoc, decodeVecElems]
    rw [h x (by simp)]
    simp [ih (fun y hy r₂ => h y (by simp [hy]) r₂)]

theorem decodeVec_encodeVec {α : Type} (dec : List Nat → Option (α × List Nat))
    (enc : α → List Nat) (xs : List α) (hlen : xs.length < 4294967296)
    (h : ∀ x ∈ xs, ∀ r, dec (enc x ++ r) = some (x, r)) (r : List Nat) :
    decodeVec dec (encodeVec enc xs ++ r) = some (xs, r) := by
  unfold decodeVec encodeVec
  rw [List.append_assoc, compactU32Decode_encode xs.length hlen]
  simp [decodeVecElems_encode dec enc xs h r]


/-! Helper lemmas: the derived comparison. -/

theorem Ordering.then_eq_lt_iff (o p : Ordering) :
    o.then p = .lt ↔ (o = .lt ∨ (o = .eq ∧ p = .lt)) := by
  cases o <;> simp [Ordering.then]

theorem Ordering.then_eq_eq_iff (o p : Ordering) :
    o.then p = .eq ↔ (o = .eq ∧ p = .eq) := by
  cases o <;> simp [Ordering.then]

theorem natCmp_eq_lt {a b : Nat} : natCmp a b = .lt ↔ a < b := by
  rcases Nat.lt_trichotomy a b with h | h | h
  · simp [natCmp, h]
  · simp [natCmp, h]
  · have h1 : ¬a < b := by omega
    have h2 : ¬a = b := by omega
    simp [natCmp, h1, h2]

theorem natCmp_eq_eq {a b : Nat} : natCmp a b = .eq ↔ a = b := by
  rcases Nat.lt_trichotomy a b with h | h | h
  · have h2 : ¬a = b := by omega
    simp [natCmp, h, h2]
  · simp [natCmp, h]
  · have h1 : ¬a < b := by omega
    have h2 : ¬a = b := by omega
    simp [natCmp, h1, h2]

theorem bytes3_cmp_eq_lt {a b : Bytes3} : a.cmp b = .lt ↔ a.lexLt b := by
  cases a
  cases b
  simp [Bytes3.cmp, Bytes3.lexLt, Ordering.then_eq_lt_iff,
    Ordering.then_eq_eq_iff, natCmp_eq_lt, natCmp_eq_eq]

theorem bytes3_cmp_eq_eq {a b : Bytes3} : a.cmp b = .eq ↔ a = b := by
  cases a
  cases b
  simp [Bytes3.cmp, Bytes3.mk.injEq, Ordering.then_eq_eq_iff,
    natCmp_eq_eq]

theorem blockObject_cmp_eq_lt {a b : BlockObject} :
    a.cmp b = .lt ↔ a.specLt b := by
  cases a with | V0 o1 s1 =>
  cases b with | V0 o2 s2 =>
  simp [BlockObject.cmp, BlockObject.specLt, Ordering.then_eq_lt_iff,
    bytes3_cmp_eq_lt, bytes3_cmp_eq_eq]

theorem blockObject_cmp_eq_eq {a b : BlockObject} :
    a.cmp b = .eq ↔ a = b := by
  cases a with | V0 o1 s1 =>
  cases b with | V0 o2 s2 =>
  simp [BlockObject.cmp, BlockObject.V0.injEq, Ordering.then_eq_eq_iff,
    bytes3_cmp_eq_eq]

theorem pieceObject_cmp_eq_lt {a b : PieceObject} :
    a.cmp b = .lt ↔ a.specLt b := by
  cases a with | V0 o1 s1 =>
  cases b with | V0 o2 s2 =>
  simp [PieceObject.cmp, PieceObject.specLt, Ordering.then_eq_lt_iff,
    natCmp_eq_lt, natCmp_eq_eq, bytes3_cmp_eq_lt]

theorem pieceObject_cmp_eq_eq {a b : PieceObject} :
    a.cmp b = .eq ↔ a = b := by
  cases a with | V0 o1 s1 =>
  cases b with | V0 o2 s2 =>
  simp [PieceObject.cmp, PieceObject.V0.injEq, Ordering.then_eq_eq_iff,
    natCmp_eq_eq, bytes3_cmp_eq_eq]

theorem globalObject_cmp_eq_lt {a b : GlobalObject} :
    a.cmp b = .lt ↔ a.specLt b := by
  cases a with | V0 p1 o1 s1 =>
  cases b with | V0 p2 o2 s2 =>
  simp [GlobalObject.cmp, GlobalObject.specLt, Ordering.then_eq_lt_iff,
    Ordering.then_eq_eq_iff, natCmp_eq_lt, natCmp_eq_eq, bytes3_cmp_eq_lt]

theorem globalObject_cmp_eq_eq {a b : GlobalObject} :
    a.cmp b = .eq ↔ a = b := by
  cases a with | V0 p1 o1 s1 =>
  cases b with | V0 p2 o2 s2 =>
  simp [GlobalObject.cmp, GlobalObject.V0.injEq, Ordering.then_eq_eq_iff,
    natCmp_eq_eq, bytes3_cmp_eq_eq]

theorem blockObject_specLt_trans {a b c : BlockObject}
    (h1 : a.specLt b) (h2 : b.specLt c) : a.specLt c := by
  cases a with | V0 o1 s1 =>
  cases b with | V0 o2 s2 =>
  cases c with | V0 o3 s3 =>
  cases o1; cases o2; cases o3; cases s1; cases s2; cases s3
  simp only [BlockObject.specLt, Bytes3.lexLt, Bytes3.mk.injEq] at h1 h2 ⊢
  omega

theorem blockObject_specLt_total {a b : BlockObject} (h : a ≠ b) :
    a.specLt b ∨ b.specLt a := by
  cases a with | V0 o1 s1 =>
  cases b with | V0 o2 s2 =>
  cases o1; cases o2; cases s1; cases s2
  simp only [ne_eq, BlockObject.V0.injEq, Bytes3.mk.injEq] at h
  simp only [BlockObject.specLt, Bytes3.lexLt, Bytes3.mk.injEq]
  omega

theorem blockObject_specLt_asymm {a b : BlockObject}
    (h1 : a.specLt b) (h2 : b.specLt a) : False := by
  cases a with | V0 o1 s1 =>
  cases b with | V0 o2 s2 =>
  cases o1; cases o2; cases s1; cases s2
  simp only [BlockObject.specLt, Bytes3.lexLt, Bytes3.mk.injEq] at h1 h2
  omega

theorem pieceObject_specLt_trans {a b c : PieceObject}
    (h1 : a.specLt b) (h2 : b.specLt c) : a.specLt c := by
  cases a with | V0 o1 s1 =>
  cases b with | V0 o2 s2 =>
  cases c with | V0 o3 s3 =>
  cases s1; cases s2; cases s3
  simp only [PieceObject.specLt, Bytes3.lexLt, Bytes3.mk.injEq] at h1 h2 ⊢
  omega

theorem pieceObject_specLt_total {a b : PieceObject} (h : a ≠ b) :
    a.specLt b ∨ b.specLt a := by
  cases a with | V0 o1 s1 =>
  cases b with | V0 o2 s2 =>
  cases s1; cases s2
  simp only [ne_eq, PieceObject.V0.injEq, Bytes3.mk.injEq] at h
  simp only [PieceObject.specLt, Bytes3.lexLt, Bytes3.mk.injEq]
  omega

theorem pieceObject_specLt_asymm {a b : PieceObject}
    (h1 : a.specLt b) (h2 : b.specLt a) : False := by
  cases a with | V0 o1 s1 =>
  cases b with | V0 o2 s2 =>
  cases s1; cases s2
  simp only [PieceObject.specLt, Bytes3.lexLt, Bytes3.mk.injEq] at h1 h2
  omega

theorem globalObject_specLt_trans {a b c : GlobalObject}
    (h1 : a.specLt b) (h2 : b.specLt c) : a.specLt c := by
  cases a with | V0 p1 o1 s1 =>
  cases b with | V0 p2 o2 s2 =>
  cases c with | V0 p3 o3 s3 =>
  cases s1; cases s2; cases s3
  simp only [GlobalObject.specLt, Bytes3.lexLt, Bytes3.mk.injEq] at h1 h2 ⊢
  omega

theorem globalObject_specLt_total {a b : GlobalObject} (h : a ≠ b) :
    a.specLt b ∨ b.specLt a := by
  cases a with | V0 p1 o1 s1 =>
  cases b with | V0 p2 o2 s2 =>
  cases s1; cases s2
  simp only [ne_eq, GlobalObject.V0.injEq, Bytes3.mk.injEq] at h
  simp only [GlobalObject.specLt, Bytes3.lexLt, Bytes3.mk.injEq]
  omega

theorem globalObject_specLt_asymm {a b : GlobalObject}
    (h1 : a.specLt b) (h2 : b.specLt a) : False := by
  cases a with | V0 p1 o1 s1 =>
  cases b with | V0 p2 o2 s2 =>
  cases s1; cases s2
  simp only [GlobalObject.specLt, Bytes3.lexLt, Bytes3.mk.injEq] at h1 h2
  omega

/-! Helper lemmas: a successful decode consumes exactly the fixed number
of bytes for its type. -/

theorem bytes3_decode_length {input r : List Nat} {b : Bytes3}
    (h : Bytes3.decode input = some (b, r)) :
    input.length = 3 + r.length := by
  rcases input with _ | ⟨a0, _ | ⟨a1, _ | ⟨a2, rest⟩⟩⟩ <;>
    simp [Bytes3.decode] at h ⊢
  obtain ⟨-, h2⟩ := h
  subst h2
  omega

theorem decodeU16_length {input r : List Nat} {v : Nat}
    (h : decodeU16 input = some (v, r)) :
    input.length = 2 + r.length := by
  rcases input with _ | ⟨a0, _ | ⟨a1, rest⟩⟩ <;> simp [decodeU16] at h ⊢
  obtain ⟨-, h2⟩ := h
  subst h2
  omega

theorem decodeU64_length {input r : List Nat} {v : Nat}
    (h : decodeU64 input = some (v, r)) :
    input.length = 8 + r.length := by
  rcases input with
    _ | ⟨a0, _ | ⟨a1, _ | ⟨a2, _ | ⟨a3, _ | ⟨a4, _ | ⟨a5, _ | ⟨a6,
      _ | ⟨a7, rest⟩⟩⟩⟩⟩⟩⟩⟩ <;> simp [decodeU64] at h ⊢
  obtain ⟨-, h2⟩ := h
  subst h2
  omega

theorem blockObject_decode_length {input r : List Nat} {x : BlockObject}
    (h : BlockObject.decode input = some (x, r)) :
    input.length = 7 + r.length := by
  rcases input with _ | ⟨tag, rest⟩
  · simp [BlockObject.decode] at h
  · by_cases ht : tag = 0
    · simp only [BlockObject.decode, ht, if_pos, Option.bind_eq_some,
        Prod.exists, Option.some.injEq, Prod.mk.injEq] at h
      obtain ⟨o, r1, h1, s, r2, h2, -, hr⟩ := h
      have l1 := bytes3_decode_length h1
      have l2 := bytes3_decode_length h2
      subst hr
      simp only [List.length_cons]
      omega
    · simp [BlockObject.decode, ht] at h

theorem pieceObject_decode_length {input r : List Nat} {x : PieceObject}
    (h : PieceObject.decode input = some (x, r)) :
    input.length = 6 + r.length := by
  rcases input with _ | ⟨tag, rest⟩
  · simp [PieceObject.decode] at h
  · by_cases ht : tag = 0
    · simp only [PieceObject.decode, ht, if_pos, Option.bind_eq_some,
        Prod.exists, Option.some.injEq, Prod.mk.injEq] at h
      obtain ⟨o, r1, h1, s, r2, h2, -, hr⟩ := h
      have l1 := decodeU16_length h1
      have l2 := bytes3_decode_length h2
      subst hr
      simp only [List.length_cons]
      omega
    · simp [PieceObject.decode, ht] at h

theorem globalObject_decode_length {input r : List Nat} {x : GlobalObject}
    (h : GlobalObject.decode input = some (x, r)) :
    input.length = 14 + r.length := by
  rcases input with _ | ⟨tag, rest⟩
  · simp [GlobalObject.decode] at h
  · by_cases ht : tag = 0
    · simp only [GlobalObject.decode, ht, if_pos, Option.bind_eq_some,
        Prod.exists, Option.some.injEq, Prod.mk.injEq] at h
      obtain ⟨pi, r1, h1, o, r2, h2, s, r3, h3, -, hr⟩ := h
      have l1 := decodeU64_length h1
      have l2 := decodeU16_length h2
      have l3 := bytes3_decode_length h3
      subst hr
      simp only [List.length_cons]
      omega
    · simp [GlobalObject.decode, ht] at h

theorem blockObject_decodeAll_eq_some {input : List Nat} {x : BlockObject}
    (h : BlockObject.decodeAll input = some x) :
    BlockObject.decode input = some (x, []) := by
  unfold BlockObject.decodeAll at h
  split at h
  · next heq =>
      rw [Option.some.injEq] at h
      subst h
      exact heq
  · exact absurd h (by simp)

theorem pieceObject_decodeAll_eq_some {input : List Nat} {x : PieceObject}
    (h : PieceObject.decodeAll input = some x) :
    PieceObject.decode input = some (x, []) := by
  unfold PieceObject.decodeAll at h
  split at h
  · next heq =>
      rw [Option.some.injEq] at h
      subst h
      exact heq
  · exact absurd h (by simp)

theorem globalObject_decodeAll_eq_some {input : List Nat} {x : GlobalObject}
    (h : GlobalObject.decodeAll input = some x) :
    GlobalObject.decode input = some (x, []) := by
  unfold GlobalObject.decodeAll at h
  split at h
  · next heq =>
      rw [Option.some.injEq] at h
      subst h
      exact heq
  · exact absurd h (by simp)

/-! Helper lemmas: the structured textual form. -/

theorem blockObject_fromJson_toJson (x : BlockObject) :
    BlockObject.fromJson x.toJson = some x := by
  cases x with | V0 o s =>
  cases o
  cases s
  rfl

theorem pieceObject_fromJson_toJson (x : PieceObject) :
    PieceObject.fromJson x.toJson = some x := by
  cases x with | V0 o s =>
  cases s
  rfl

theorem globalObject_fromJson_toJson (x : GlobalObject) :
    GlobalObject.fromJson x.toJson = some x := by
  cases x with | V0 pi o s =>
  cases s
  rfl

/-! The claims. -/

/-- C1: For every BlockObject, PieceObject, GlobalObject, BlockObjectMapping
and PieceObjectMapping value whose packed fields are within range, decoding
the canonical binary encoding of the value yields the value back. -/
theorem c1_binary_roundtrip :
    (∀ x : BlockObject, x.wf → BlockObject.decodeAll x.encode = some x)
    ∧ (∀ x : PieceObject, x.wf → PieceObject.decodeAll x.encode = some x)
    ∧ (∀ x : GlobalObject, x.wf → GlobalObject.decodeAll x.encode = some x)
    ∧ (∀ m : BlockObjectMapping, m.wf →
        BlockObjectMapping.decodeAll m.encode = some m)
    ∧ (∀ m : PieceObjectMapping, m.wf →
        PieceObjectMapping.decodeAll m.encode = some m) := by
  refine ⟨?_, ?_, ?_, ?_, ?_⟩
  · intro x _
    have h := blockObject_decode_encode x []
    rw [List.append_nil] at h
    simp [BlockObject.decodeAll, h]
  · intro x hx
    have h := pieceObject_decode_encode x hx []
    rw [List.append_nil] at h
    simp [PieceObject.decodeAll, h]
  · intro x hx
    have h := globalObject_decode_encode x hx []
    rw [List.append_nil] at h
    simp [GlobalObject.decodeAll, h]
  · intro m hm
    obtain ⟨hlen, helem⟩ := hm
    have h := decodeVec_encodeVec BlockObject.decode BlockObject.encode
      m.objects hlen (fun x _ r => blockObject_decode_encode x r) []
    rw [List.append_nil] at h
    simp [BlockObjectMapping.decodeAll, BlockObjectMapping.decode,
      BlockObjectMapping.encode, h]
  · intro m hm
    obtain ⟨hlen, helem⟩ := hm
    have h := decodeVec_encodeVec PieceObject.decode PieceObject.encode
      m.objects hlen (fun x hx r => pieceObject_decode_encode x (helem x hx) r)
      []
    rw [List.append_nil] at h
    simp [PieceObjectMapping.decodeAll, PieceObjectMapping.decode,
      PieceObjectMapping.encode, h]

/-- Witness for C1 at concrete in-range values of all five types. -/
theorem c1_binary_roundtrip_witness :
    BlockObject.decodeAll (BlockObject.V0 ⟨1, 2, 3⟩ ⟨4, 5, 6⟩).encode
      = some (BlockObject.V0 ⟨1, 2, 3⟩ ⟨4, 5, 6⟩)
    ∧ PieceObject.decodeAll (PieceObject.V0 300 ⟨7, 8, 9⟩).encode
      = some (PieceObject.V0 300 ⟨7, 8, 9⟩)
    ∧ GlobalObject.decodeAll (GlobalObject.V0 5 100 ⟨0, 1, 0⟩).encode
      = some (GlobalObject.V0 5 100 ⟨0, 1, 0⟩)
    ∧ BlockObjectMapping.decodeAll
        (BlockObjectMapping.mk [BlockObject.V0 ⟨1, 2, 3⟩ ⟨4, 5, 6⟩]).encode
      = some (BlockObjectMapping.mk [BlockObject.V0 ⟨1, 2, 3⟩ ⟨4, 5, 6⟩])
    ∧ PieceObjectMapping.decodeAll
        (PieceObjectMapping.mk [PieceObject.V0 300 ⟨7, 8, 9⟩]).encode
      = some (PieceObjectMapping.mk [PieceObject.V0 300 ⟨7, 8, 9⟩]) :=
  ⟨c1_binary_roundtrip.1 _ (by decide),
   c1_binary_roundtrip.2.1 _ (by decide),
   c1_binary_roundtrip.2.2.1 _ (by decide),
   c1_binary_roundtrip.2.2.2.1 _ (by decide),
   c1_binary_roundtrip.2.2.2.2 _ (by decide)⟩

/-- C2: the packed 24-bit convention is a bijection between values in
0..=0xFFFFFF and 3-byte arrays; unpacking is exactly what the offset and
size accessors compute (little-endian with a zero-extended fourth byte). -/
theorem c2_packed24_bijection :
    (∀ v : Nat, v < 16777216 → unpack24 (pack24 v) = v)
    ∧ (∀ b : Bytes3, b.wf → pack24 (unpack24 b) = b)
    ∧ (∀ o s : Bytes3, (BlockObject.V0 o s).offset = unpack24 o
        ∧ (BlockObject.V0 o s).size = unpack24 s) := by
  refine ⟨?_, ?_, ?_⟩
  · intro v hv
    simp only [pack24, unpack24, u32FromLE]
    omega
  · intro b hb
    cases b with
    | mk x y z =>
      have h0 : x < 256 := hb.1
      have h1 : y < 256 := hb.2.1
      have h2 : z < 256 := hb.2.2
      simp only [pack24, unpack24, u32FromLE, Bytes3.mk.injEq]
      refine ⟨by omega, by omega, by omega⟩
  · intro o s
    exact ⟨rfl, rfl⟩

/-- Witness for C2 at v = 65793 and b = [1, 2, 3]. -/
theorem c2_packed24_bijection_witness :
    unpack24 (pack24 65793) = 65793
    ∧ pack24 (unpack24 ⟨1, 2, 3⟩) = ⟨1, 2, 3⟩ :=
  ⟨c2_packed24_bijection.1 65793 (by decide),
   c2_packed24_bijection.2.1 ⟨1, 2, 3⟩ (by decide)⟩

/-- C3: for each of the three record types, decoding a buffer whose first
byte is any value other than 0 fails with a decode error (the total decode
function returns none; no value is ever produced). -/
theorem c3_tag_rejection :
    ∀ t : Nat, t ≠ 0 → ∀ r : List Nat,
      BlockObject.decode (t :: r) = none
      ∧ PieceObject.decode (t :: r) = none
      ∧ GlobalObject.decode (t :: r) = none := by
  intro t ht r
  refine ⟨?_, ?_, ?_⟩ <;>
    simp [BlockObject.decode, PieceObject.decode, GlobalObject.decode, ht]

/-- Witness for C3 with tag byte 1 and a plausible V0 payload. -/
theorem c3_tag_rejection_witness :
    BlockObject.decode [1, 0, 0, 0, 10, 0, 0] = none
    ∧ PieceObject.decode [1, 0, 0, 0, 10, 0, 0] = none
    ∧ GlobalObject.decode [1, 0, 0, 0, 10, 0, 0] = none :=
  c3_tag_rejection 1 (by decide) [0, 0, 0, 10, 0, 0]

/-- C4: for each of the three record types, decoding a buffer whose byte
length differs from the type's fixed encoded length fails: shorter buffers
fail inside decode, longer ones leave unconsumed bytes which decodeAll
rejects. -/
theorem c4_length_rejection :
    ∀ input : List Nat,
      (input.length ≠ 7 → BlockObject.decodeAll input = none)
      ∧ (input.length ≠ 6 → PieceObject.decodeAll input = none)
      ∧ (input.length ≠ 14 → GlobalObject.decodeAll input = none) := by
  intro input
  refine ⟨?_, ?_, ?_⟩
  · intro h7
    cases hd : BlockObject.decodeAll input with
    | none => rfl
    | some x =>
      have := blockObject_decode_length (blockObject_decodeAll_eq_some hd)
      simp at this
      exact absurd this h7
  · intro h6
    cases hd : PieceObject.decodeAll input with
    | none => rfl
    | some x =>
      have := pieceObject_decode_length (pieceObject_decodeAll_eq_some hd)
      simp at this
      exact absurd this h6
  · intro h14
    cases hd : GlobalObject.decodeAll input with
    | none => rfl
    | some x =>
      have := globalObject_decode_length (globalObject_decodeAll_eq_some hd)
      simp at this
      exact absurd this h14

/-- Witness for C4 on a short buffer and on one with a trailing byte. -/
theorem c4_length_rejection_witness :
    BlockObject.decodeAll [0, 0, 0] = none
    ∧ PieceObject.decodeAll [0, 0, 0] = none
    ∧ GlobalObject.decodeAll [0, 0, 0] = none
    ∧ BlockObject.decodeAll [0, 0, 0, 0, 10, 0, 0, 99] = none :=
  ⟨(c4_length_rejection [0, 0, 0]).1 (by decide),
   (c4_length_rejection [0, 0, 0]).2.1 (by decide),
   (c4_length_rejection [0, 0, 0]).2.2 (by decide),
   (c4_length_rejection [0, 0, 0, 0, 10, 0, 0, 99]).1 (by decide)⟩

/-- C5: every V0 record encodes to the fixed little-endian layout of the
spec's table: BlockObject to 7 bytes tag, offset bytes, size bytes;
PieceObject to 6 bytes tag, offset LE, size bytes; GlobalObject to 14 bytes
tag, piece_index LE, offset LE, size bytes; and the concrete example
encodes to [0, 0, 0, 0, 10, 0, 0]. -/
theorem c5_fixed_layout :
    (∀ o s : Bytes3, (BlockObject.V0 o s).encode
        = [0, o.b0, o.b1, o.b2, s.b0, s.b1, s.b2])
    ∧ (∀ off : Nat, ∀ s : Bytes3, (PieceObject.V0 off s).encode
        = [0, off % 256, off / 256 % 256, s.b0, s.b1, s.b2])
    ∧ (∀ pi off : Nat, ∀ s : Bytes3, (GlobalObject.V0 pi off s).encode
        = [0, pi % 256, pi / 256 % 256, pi / 65536 % 256,
           pi / 16777216 % 256, pi / 4294967296 % 256,
           pi / 1099511627776 % 256, pi / 281474976710656 % 256,
           pi / 72057594037927936 % 256, off % 256, off / 256 % 256,
           s.b0, s.b1, s.b2])
    ∧ (∀ x : BlockObject, x.encode.length = 7)
    ∧ (∀ x : PieceObject, x.encode.length = 6)
    ∧ (∀ x : GlobalObject, x.encode.length = 14)
    ∧ (BlockObject.V0 ⟨0, 0, 0⟩ ⟨10, 0, 0⟩).encode = [0, 0, 0, 0, 10, 0, 0] := by
  refine ⟨fun o s => rfl, fun off s => rfl, fun pi off s => rfl,
    ?_, ?_, ?_, rfl⟩
  · intro x
    cases x
    rfl
  · intro x
    cases x
    rfl
  · intro x
    cases x
    rfl

/-- C6: the accessors are total functions returning the decoded field
values: offset and size decode the packed little-endian bytes, piece_index
and the u16 offset return the stored integer; including the spec's two
concrete examples. -/
theorem c6_accessors :
    (∀ o s : Bytes3, (BlockObject.V0 o s).offset
          = o.b0 + 256 * o.b1 + 65536 * o.b2
        ∧ (BlockObject.V0 o s).size = s.b0 + 256 * s.b1 + 65536 * s.b2)
    ∧ (∀ off : Nat, ∀ s : Bytes3, (PieceObject.V0 off s).offset = off
        ∧ (PieceObject.V0 off s).size = s.b0 + 256 * s.b1 + 65536 * s.b2)
    ∧ (∀ pi off : Nat, ∀ s : Bytes3,
        (GlobalObject.V0 pi off s).piece_index = pi
        ∧ (GlobalObject.V0 pi off s).offset = off
        ∧ (GlobalObject.V0 pi off s).size = s.b0 + 256 * s.b1 + 65536 * s.b2)
    ∧ (GlobalObject.V0 5 100 ⟨0, 1, 0⟩).piece_index = 5
    ∧ (GlobalObject.V0 5 100 ⟨0, 1, 0⟩).offset = 100
    ∧ (GlobalObject.V0 5 100 ⟨0, 1, 0⟩).size = 256
    ∧ (BlockObject.V0 ⟨0, 0, 0⟩ ⟨10, 0, 0⟩).offset = 0
    ∧ (BlockObject.V0 ⟨0, 0, 0⟩ ⟨10, 0, 0⟩).size = 10 := by
  refine ⟨fun o s => ⟨?_, ?_⟩, fun off s => ⟨rfl, ?_⟩,
    fun pi off s => ⟨rfl, rfl, ?_⟩, rfl, rfl, rfl, rfl, rfl⟩ <;>
    simp [BlockObject.offset, BlockObject.size, PieceObject.size,
      GlobalObject.size, u32FromLE]

/-- C7: for each of the three record types the derived comparison agrees
with field-wise equality and with lexicographic comparison of the fields in
declared order, and it is a strict total order: transitive, asymmetric, and
total on distinct values. -/
theorem c7_derived_ordering :
    ((∀ a b : BlockObject, (a.cmp b = .eq ↔ a = b)
        ∧ (a.cmp b = .lt ↔ a.specLt b))
      ∧ (∀ a b c : BlockObject, a.cmp b = .lt → b.cmp c = .lt → a.cmp c = .lt)
      ∧ (∀ a b : BlockObject, a.cmp b = .lt → b.cmp a = .lt → False)
      ∧ (∀ a b : BlockObject, a ≠ b → a.cmp b = .lt ∨ b.cmp a = .lt))
    ∧ ((∀ a b : PieceObject, (a.cmp b = .eq ↔ a = b)
        ∧ (a.cmp b = .lt ↔ a.specLt b))
      ∧ (∀ a b c : PieceObject, a.cmp b = .lt → b.cmp c = .lt → a.cmp c = .lt)
      ∧ (∀ a b : PieceObject, a.cmp b = .lt → b.cmp a = .lt → False)
      ∧ (∀ a b : PieceObject, a ≠ b → a.cmp b = .lt ∨ b.cmp a = .lt))
    ∧ ((∀ a b : GlobalObject, (a.cmp b = .eq ↔ a = b)
        ∧ (a.cmp b = .lt ↔ a.specLt b))
      ∧ (∀ a b c : GlobalObject, a.cmp b = .lt → b.cmp c = .lt → a.cmp c = .lt)
      ∧ (∀ a b : GlobalObject, a.cmp b = .lt → b.cmp a = .lt → False)
      ∧ (∀ a b : GlobalObject, a ≠ b → a.cmp b = .lt ∨ b.cmp a = .lt)) := by
  refine ⟨⟨?_, ?_, ?_, ?_⟩, ⟨?_, ?_, ?_, ?_⟩, ⟨?_, ?_, ?_, ?_⟩⟩
  · exact fun a b => ⟨blockObject_cmp_eq_eq, blockObject_cmp_eq_lt⟩
  · exact fun a b c h1 h2 => blockObject_cmp_eq_lt.mpr
      (blockObject_specLt_trans (blockObject_cmp_eq_lt.mp h1)
        (blockObject_cmp_eq_lt.mp h2))
  · exact fun a b h1 h2 => blockObject_specLt_asymm
      (blockObject_cmp_eq_lt.mp h1) (blockObject_cmp_eq_lt.mp h2)
  · exact fun a b h => (blockObject_specLt_total h).imp
      blockObject_cmp_eq_lt.mpr blockObject_cmp_eq_lt.mpr
  · exact fun a b => ⟨pieceObject_cmp_eq_eq, pieceObject_cmp_eq_lt⟩
  · exact fun a b c h1 h2 => pieceObject_cmp_eq_lt.mpr
      (pieceObject_specLt_trans (pieceObject_cmp_eq_lt.mp h1)
        (pieceObject_cmp_eq_lt.mp h2))
  · exact fun a b h1 h2 => pieceObject_specLt_asymm
      (pieceObject_cmp_eq_lt.mp h1) (pieceObject_cmp_eq_lt.mp h2)
  · exact fun a b h => (pieceObject_specLt_total h).imp
      pieceObject_cmp_eq_lt.mpr pieceObject_cmp_eq_lt.mpr
  · exact fun a b => ⟨globalObject_cmp_eq_eq, globalObject_cmp_eq_lt⟩
  · exact fun a b c h1 h2 => globalObject_cmp_eq_lt.mpr
      (globalObject_specLt_trans (globalObject_cmp_eq_lt.mp h1)
        (globalObject_cmp_eq_lt.mp h2))
  · exact fun a b h1 h2 => globalObject_specLt_asymm
      (globalObject_cmp_eq_lt.mp h1) (globalObject_cmp_eq_lt.mp h2)
  · exact fun a b h => (globalObject_specLt_total h).imp
      globalObject_cmp_eq_lt.mpr globalObject_cmp_eq_lt.mpr

/-- Witness for C7: transitivity and totality instantiated at concrete
records of each type. -/
theorem c7_derived_ordering_witness :
    BlockObject.cmp (BlockObject.V0 ⟨0, 0, 0⟩ ⟨0, 0, 0⟩)
        (BlockObject.V0 ⟨2, 0, 0⟩ ⟨0, 0, 0⟩) = .lt
    ∧ (PieceObject.cmp (PieceObject.V0 1 ⟨0, 0, 0⟩)
          (PieceObject.V0 2 ⟨0, 0, 0⟩) = .lt
        ∨ PieceObject.cmp (PieceObject.V0 2 ⟨0, 0, 0⟩)
          (PieceObject.V0 1 ⟨0, 0, 0⟩) = .lt)
    ∧ GlobalObject.cmp (GlobalObject.V0 1 5 ⟨0, 0, 0⟩)
        (GlobalObject.V0 3 0 ⟨0, 0, 0⟩) = .lt :=
  ⟨c7_derived_ordering.1.2.1 _ (BlockObject.V0 ⟨1, 0, 0⟩ ⟨0, 0, 0⟩) _
      (by decide) (by decide),
   c7_derived_ordering.2.1.2.2.2 _ _ (by decide),
   c7_derived_ordering.2.2.2.1 _ (GlobalObject.V0 2 9 ⟨0, 0, 0⟩) _
      (by decide) (by decide)⟩

/-- C8: a freshly constructed default mapping has zero elements and its
binary encoding is the compact encoding of length zero, the single byte 0. -/
theorem c8_default_mapping :
    BlockObjectMapping.default.objects.length = 0
    ∧ BlockObjectMapping.default.encode = compactU32Encode 0
    ∧ BlockObjectMapping.default.encode = [0]
    ∧ PieceObjectMapping.default.objects.length = 0
    ∧ PieceObjectMapping.default.encode = compactU32Encode 0
    ∧ PieceObjectMapping.default.encode = [0] :=
  ⟨rfl, rfl, rfl, rfl, rfl, rfl⟩

/-- C9 counterexample: the structured textual form of a GlobalObject keeps
the internal snake-case field identifier piece_index; pieceIndex does not
occur, and the version tag does appear as the outer key v0.  This refutes
the claim that piece_index renders as pieceIndex with no tag field. -/
theorem c9_counterexample :
    Json.variantFieldNames ((GlobalObject.V0 5 100 ⟨0, 1, 0⟩).toJson)
      = ["piece_index", "offset", "size"]
    ∧ ¬ ("pieceIndex" ∈ Json.variantFieldNames
        ((GlobalObject.V0 5 100 ⟨0, 1, 0⟩).toJson))
    ∧ Json.topKeys ((GlobalObject.V0 5 100 ⟨0, 1, 0⟩).toJson) = ["v0"] := by
  refine ⟨rfl, by decide, rfl⟩

/-- C9 (amended): textual encode then decode reproduces every record
value; the camel-case renaming applies to the variant name, which renders
as the outer key v0, while struct field identifiers are exposed unchanged
(piece_index stays piece_index). -/
theorem c9_textual_roundtrip :
    (∀ x : BlockObject, BlockObject.fromJson x.toJson = some x)
    ∧ (∀ x : PieceObject, PieceObject.fromJson x.toJson = some x)
    ∧ (∀ x : GlobalObject, GlobalObject.fromJson x.toJson = some x)
    ∧ (∀ x : GlobalObject, Json.topKeys x.toJson = ["v0"]
        ∧ Json.variantFieldNames x.toJson
          = ["piece_index", "offset", "size"]) := by
  refine ⟨blockObject_fromJson_toJson, pieceObject_fromJson_toJson,
    globalObject_fromJson_toJson, ?_⟩
  intro x
  cases x
  exact ⟨rfl, rfl⟩

/-- C10: the derived structural order on BlockObject is not monotone in
the decoded offset: there are records a, b with a before b in the
structural order whose decoded offsets compare the other way, because the
packed bytes are compared lexicographically but decoded little-endian. -/
theorem c10_order_not_monotone :
    ∃ a b : BlockObject, a.cmp b = .lt ∧ b.offset < a.offset :=
  ⟨BlockObject.V0 ⟨0, 0, 1⟩ ⟨0, 0, 0⟩, BlockObject.V0 ⟨1, 0, 0⟩ ⟨0, 0, 0⟩,
    by decide⟩

end Subspace
